import Mathlib

/-!
Verification of the bitchat-electron protocol core against its source.

Bytes are modelled as `List Nat` (each element a byte value 0..255 where it
matters).  Node.js `Buffer` semantics relevant here:
  - `Buffer.alloc(n)` is a zero-filled buffer of exactly `n` bytes;
  - `src.copy(target, targetStart, sourceStart, sourceEnd)` copies
    `min(sourceEnd - sourceStart, target.length - targetStart, src.length - sourceStart)`
    bytes: it silently trims at the end of the target and of the source and
    never throws for an overlong region;
  - `writeUInt8` / `writeUInt16BE` / `writeBigUInt64BE` throw a `RangeError`
    when the value does not fit the width or the offset does not leave room;
  - `readUInt16BE(off)` throws when `off + 2 > length`.
All multi-byte integers on the wire are big-endian.
-/

namespace Bitchat

/-- Constants from `src/shared/constants.ts`. -/
def PROTOCOL_VERSION : Nat := 1

def MAX_TTL : Nat := 7

def MESSAGE_MAX_SIZE : Nat := 65535

def BLE_MTU : Nat := 512

def STANDARD_BLOCK_SIZES : List Nat := [256, 512, 1024, 2048]

/-- `BROADCAST_ID = Buffer.from([0xFF × 8])`. -/
def BROADCAST_ID : List Nat := [255, 255, 255, 255, 255, 255, 255, 255]

/-- Message type constants (`MessageType` in `src/shared/constants.ts`). -/
def MessageTypeANNOUNCE : Nat := 0x01

def MessageTypeLEAVE : Nat := 0x03

def MessageTypeMESSAGE : Nat := 0x04

def MessageTypeDELIVERY_ACK : Nat := 0x0A

def MessageTypeREAD_RECEIPT : Nat := 0x0C

def MessageTypeFRAGMENT_START : Nat := 0x05

def MessageTypeFRAGMENT_CONTINUE : Nat := 0x06

def MessageTypeFRAGMENT_END : Nat := 0x07

/-- The byte at index `i` of a buffer (all reads below are in range when used). -/
def byteAt (data : List Nat) (i : Nat) : Nat := data.getD i 0

/-- `readUInt16BE(off)`. -/
def readU16BE (data : List Nat) (off : Nat) : Nat :=
  byteAt data off * 256 + byteAt data (off + 1)

/-- `readBigUInt64BE(off)`. -/
def readU64BE (data : List Nat) (off : Nat) : Nat :=
  byteAt data off * 256 ^ 7 + byteAt data (off + 1) * 256 ^ 6 +
  byteAt data (off + 2) * 256 ^ 5 + byteAt data (off + 3) * 256 ^ 4 +
  byteAt data (off + 4) * 256 ^ 3 + byteAt data (off + 5) * 256 ^ 2 +
  byteAt data (off + 6) * 256 + byteAt data (off + 7)

/-- Big-endian 2-byte encoding (`writeUInt16BE`, value `< 2^16`). -/
def u16be (n : Nat) : List Nat := [n / 256 % 256, n % 256]

/-- Big-endian 8-byte encoding (`writeBigUInt64BE`, value `< 2^64`). -/
def u64be (n : Nat) : List Nat :=
  [n / 256 ^ 7 % 256, n / 256 ^ 6 % 256, n / 256 ^ 5 % 256, n / 256 ^ 4 % 256,
   n / 256 ^ 3 % 256, n / 256 ^ 2 % 256, n / 256 % 256, n % 256]

/-- Copying `xs` into a fresh zero-filled slot of `n` bytes
(`Buffer.alloc(n)` then `xs.copy(slot)`): the copy is trimmed to the slot,
bytes not covered stay `0`. -/
def padTrim (xs : List Nat) (n : Nat) : List Nat :=
  xs.take n ++ List.replicate (n - xs.length) 0

/-- Reading `n` bytes starting at `off` into a fresh zero-filled buffer
(`data.copy(out, 0, off, off + n)`): trimmed at the end of `data`,
the rest stays `0`. -/
def readSlot (data : List Nat) (off n : Nat) : List Nat :=
  let got := (data.drop off).take n
  got ++ List.replicate (n - got.length) 0

/-- `BitchatPacket` from `src/shared/types.ts`: `recipientID` and `signature`
are optional fields, `flags` is the raw flags byte. -/
structure BitchatPacket where
  version : Nat
  type : Nat
  ttl : Nat
  timestamp : Nat
  flags : Nat
  senderID : List Nat
  recipientID : Option (List Nat)
  payload : List Nat
  signature : Option (List Nat)
  isCompressed : Bool
deriving DecidableEq, Repr

inductive EncodeError where
  /-- `Payload size ... exceeds maximum 65535`. -/
  | oversizedPayload
  /-- a `RangeError` from `writeUInt8` / `writeBigUInt64BE` on an
  out-of-range field value. -/
  | valueOutOfRange
deriving DecidableEq, Repr

inductive DecodeError where
  /-- `Invalid packet: too small for header` (fewer than 13 bytes). -/
  | tooSmallForHeader
  /-- `RangeError` from `readUInt16BE(12)` on a buffer of exactly 13 bytes. -/
  | readOutOfRange
  /-- `Invalid packet: expected N bytes, got M`. -/
  | truncatedBody
deriving DecidableEq, Repr

namespace BinaryProtocol

/-- The flags byte computed by `encode` (lines 52-62 of `BinaryProtocol.ts`);
the `flags` field of the input packet is ignored. -/
def encodeFlags (p : BitchatPacket) : Nat :=
  (if p.recipientID.isSome then 1 else 0) |||
  (if p.signature.isSome then 2 else 0) |||
  (if p.isCompressed then 4 else 0)

/-- `BinaryProtocol.encode`.  The source allocates
`13 + 8 + payload.length (+8 recipient) (+64 signature)` bytes and writes,
in order: version, type, ttl, timestamp (8), flags, payloadLength (2) —
which occupies 14 bytes, one more than the 13 accounted for — then
senderID (8), optional recipientID (8), payload, optional signature (64).
The writes run one byte past the allocation and `Buffer.copy` silently trims
there, so the result is the first `bufferSize` bytes of the full layout. -/
def encode (p : BitchatPacket) : Except EncodeError (List Nat) :=
  if p.payload.length > MESSAGE_MAX_SIZE then .error .oversizedPayload
  else if 255 < p.version ∨ 255 < p.type ∨ 255 < p.ttl ∨ 2 ^ 64 ≤ p.timestamp then
    .error .valueOutOfRange
  else
    let bufferSize := 13 + 8 + p.payload.length +
      (if p.recipientID.isSome then 8 else 0) +
      (if p.signature.isSome then 64 else 0)
    let content :=
      [p.version, p.type, p.ttl] ++ u64be p.timestamp ++
      [encodeFlags p] ++ u16be p.payload.length ++
      padTrim p.senderID 8 ++
      (match p.recipientID with
       | some r => padTrim r 8
       | none => []) ++
      p.payload ++
      (match p.signature with
       | some s => padTrim s 64
       | none => [])
    .ok (content.take bufferSize)

/-- The size `decode` expects, computed from the flags byte and the announced
payload length (lines 117-124 of `BinaryProtocol.ts`). -/
def expectedPacketSize (flags payloadLength : Nat) : Nat :=
  13 + 8 + payloadLength +
  (if flags &&& 1 ≠ 0 then 8 else 0) +
  (if flags &&& 2 ≠ 0 then 64 else 0)

/-- `BinaryProtocol.decode`.  Header reads end at offset 14 (one past the
13 the size check uses); field reads are trimmed at the end of the buffer
with the remainder of each field left zero. -/
def decode (data : List Nat) : Except DecodeError BitchatPacket :=
  if data.length < 13 then .error .tooSmallForHeader
  else if data.length < 14 then .error .readOutOfRange
  else
    let flags := byteAt data 11
    let payloadLength := readU16BE data 12
    let hasRecipient := flags &&& 1 ≠ 0
    let hasSignature := flags &&& 2 ≠ 0
    if data.length < expectedPacketSize flags payloadLength then .error .truncatedBody
    else
      let payloadOff := 14 + 8 + (if hasRecipient then 8 else 0)
      .ok {
        version := byteAt data 0
        type := byteAt data 1
        ttl := byteAt data 2
        timestamp := readU64BE data 3
        flags := flags
        senderID := readSlot data 14 8
        recipientID := if hasRecipient then some (readSlot data (14 + 8) 8) else none
        payload := readSlot data payloadOff payloadLength
        signature :=
          if hasSignature then some (readSlot data (payloadOff + payloadLength) 64) else none
        isCompressed := flags &&& 4 ≠ 0
      }

end BinaryProtocol

/-- The packet of the repo test `should encode and decode a basic packet`
(`tests/unit/protocols/BinaryProtocol.test.ts`), which is also the codec
test vector of the specification: sender `0x1234567890ABCDEF`, payload the
ASCII bytes of `Hello, BitChat!`. -/
def testVectorPacket : BitchatPacket :=
  { version := 1, type := 4, ttl := 7, timestamp := 1733251200000, flags := 0,
    senderID := [0x12, 0x34, 0x56, 0x78, 0x90, 0xAB, 0xCD, 0xEF],
    recipientID := none,
    payload := [72, 101, 108, 108, 111, 44, 32, 66, 105, 116, 67, 104, 97, 116, 33],
    signature := none, isCompressed := false }

/-! ### BitchatProtocol (`src/main/protocols/BitchatProtocol.ts`) -/

/-- The packet id of `getPacketId`: hex of the senderID, the decimal
timestamp and hex of the first 8 payload bytes joined by `:`.  Hex and
decimal digit strings contain no `:`, so the joined string is in bijection
with this triple and the triple is a faithful model of the id. -/
abbrev PacketId := List Nat × Nat × List Nat

def getPacketId (p : BitchatPacket) : PacketId :=
  (p.senderID, p.timestamp, p.payload.take 8)

/-- The clock-skew allowance of `validatePacket` (5 minutes in ms). -/
def SKEW_MS : Nat := 5 * 60 * 1000

/-- `verifySignature` is a stub in the source and always returns `true`. -/
def verifySignature (_p : BitchatPacket) : Bool := true

/-- The `for (const blockSize of STANDARD_BLOCK_SIZES)` loop of
`applyPadding`: starting from `targetSize = len`, the first block size of at
least `len` wins (`break`); `len` remains when no block is large enough. -/
def firstBlockGE (len : Nat) : List Nat → Nat
  | [] => len
  | b :: bs => if len ≤ b then b else firstBlockGE len bs

/-- The padding target computed inside `applyPadding` (lines 336-349): the
first standard block size of at least the payload length, or — when the
payload is longer than the largest standard size 2048
(`STANDARD_BLOCK_SIZES[STANDARD_BLOCK_SIZES.length - 1]`) —
`Math.ceil(len / 256) * 256`. -/
def applyPaddingTarget (len : Nat) : Nat :=
  let t0 := firstBlockGE len STANDARD_BLOCK_SIZES
  if t0 = len ∧ 2048 < len then ((len + 255) / 256) * 256 else t0

/-- `applyPadding` (lines 336-362): `randomByte` stands for the stream of
`crypto.randomBytes`; the result is
`[u16 BE length | payload | random padding]` in a buffer of
`targetSize + 2` bytes.  `writeUInt16BE` throws when the payload length
exceeds 65535. -/
def applyPadding (randomByte : Nat → Nat) (payload : List Nat) : Option (List Nat) :=
  if payload.length > 65535 then none
  else
    let targetSize := applyPaddingTarget payload.length
    let paddingSize := targetSize - payload.length
    let padding := (List.range paddingSize).map (fun i => randomByte i % 256)
    some (u16be payload.length ++ payload ++ padding)

/-- `removePadding` (lines 367-378). -/
def removePadding (paddedPayload : List Nat) : Option (List Nat) :=
  if paddedPayload.length < 2 then none
  else
    let payloadLength := readU16BE paddedPayload 0
    if payloadLength > paddedPayload.length - 2 then none
    else some ((paddedPayload.drop 2).take payloadLength)

/-! ### Fragmentation (`BinaryProtocol.fragmentMessage` / `reassembleFragments`) -/

namespace BinaryProtocol

/-- `fragmentMessage` (lines 173-218).  `messageIdBytes` stands for
`Buffer.from(messageId, 'hex')`; the source slices it to 8 bytes and copies
it into a zero-filled slot.  Payloads of at most `BLE_MTU` bytes stay one
`MESSAGE` packet; larger payloads are cut into `Math.ceil(len / BLE_MTU)`
chunks of `BLE_MTU` bytes (the last one shorter) and each fragment payload
is `[message_id(8) | index(2 BE) | total(2 BE) | data]`.  `writeUInt16BE`
throws when the fragment count exceeds 65535.  The result pairs each
fragment type with the fragment payload handed to `createPacket`. -/
def fragmentMessage (messageIdBytes : List Nat) (payload : List Nat) :
    Option (List (Nat × List Nat)) :=
  if payload.length ≤ BLE_MTU then some [(MessageTypeMESSAGE, payload)]
  else
    let totalFragments := (payload.length + BLE_MTU - 1) / BLE_MTU
    if totalFragments > 65535 then none
    else
      let messageIdBuffer := messageIdBytes.take 8
      some ((List.range totalFragments).map (fun i =>
        let fragment := (payload.drop (i * BLE_MTU)).take BLE_MTU
        let fragmentPayload :=
          padTrim messageIdBuffer 8 ++ u16be i ++ u16be totalFragments ++ fragment
        let fragmentType :=
          if i = 0 then MessageTypeFRAGMENT_START
          else if i = totalFragments - 1 then MessageTypeFRAGMENT_END
          else MessageTypeFRAGMENT_CONTINUE
        (fragmentType, fragmentPayload)))

end BinaryProtocol

/-- `MessageFragment` from `src/shared/types.ts`; the `messageId` hex string
is modelled by its byte content. -/
structure MessageFragment where
  messageId : List Nat
  fragmentIndex : Nat
  totalFragments : Nat
  data : List Nat
deriving DecidableEq, Repr

/-- Stable insertion step: a fragment goes after all strictly smaller
indices and before equal ones already present later in the original order. -/
def insertFrag (f : MessageFragment) : List MessageFragment → List MessageFragment
  | [] => [f]
  | g :: gs =>
    if g.fragmentIndex < f.fragmentIndex then g :: insertFrag f gs else f :: g :: gs

/-- `fragments.sort((a, b) => a.fragmentIndex - b.fragmentIndex)`:
`Array.prototype.sort` is stable (ES2019), so it computes the unique stable
ascending order, here as a stable insertion sort. -/
def sortByIndex : List MessageFragment → List MessageFragment
  | [] => []
  | f :: fs => insertFrag f (sortByIndex fs)

namespace BinaryProtocol

/-- `reassembleFragments` (lines 223-245): sort by index, require the count
to equal `totalFragments` of the (sorted) first fragment and all fragments
to share its `messageId`, then concatenate the data in sorted order.  No
check that the indices are exactly `0..total-1`. -/
def reassembleFragments (fragments : List MessageFragment) : Option (List Nat) :=
  match sortByIndex fragments with
  | [] => none
  | f0 :: rest =>
    if fragments.length ≠ f0.totalFragments then none
    else if (f0 :: rest).all (fun f => f.messageId = f0.messageId) = false then none
    else some (((f0 :: rest).map (fun f => f.data)).flatten)

/-- `parseFragment` (lines 250-266): throws on payloads shorter than 12
bytes; otherwise message id = first 8 bytes (its hex string in the source),
index and total as u16 BE, data = the rest. -/
def parseFragment (payload : List Nat) : Option MessageFragment :=
  if payload.length < 12 then none
  else some ⟨payload.take 8, readU16BE payload 8, readU16BE payload 10, payload.drop 12⟩

end BinaryProtocol

/-! ### Message decoding and the dispatch handlers
(`BitchatProtocol.decodeMessage` and `handleMessage` / `handleAnnounce` /
`handleLeave` / `handleFragment` / `handleDeliveryAck`).  The handlers run
inside `processPacket` before the relay step and their exceptions propagate
out of `processPacket`, so their throw conditions must be modelled: a
handler result of `none` stands for a throw. -/

/-- `BitchatMessage` as built by `decodeMessage`; string fields are kept as
their byte content. -/
structure BitchatMessage where
  id : List Nat
  sender : List Nat
  content : List Nat
  timestamp : Nat
  isRelay : Bool
  isPrivate : Bool
  originalSender : Option (List Nat)
  recipientNickname : Option (List Nat)
  senderPeerID : Option (List Nat)
  mentions : Option (List (List Nat))
deriving DecidableEq, Repr

/-- One length-prefixed field read of `decodeMessage`:
`len = readUInt8(offset++)` (throws when `offset` is past the end) followed
by `slice(offset, offset + len)` (clamps); returns the field and the new
offset. -/
def readLP (b : List Nat) (off : Nat) : Option (List Nat × Nat) :=
  if b.length < off + 1 then none
  else
    let len := byteAt b off
    some ((b.drop (off + 1)).take len, off + 1 + len)

/-- The mentions loop of `decodeMessage`: `count` length-prefixed reads. -/
def readMentions (b : List Nat) : Nat → Nat → Option (List (List Nat) × Nat)
  | 0, off => some ([], off)
  | n + 1, off =>
    match readLP b off with
    | none => none
    | some (m, off2) =>
      match readMentions b n off2 with
      | none => none
      | some (ms, off3) => some (m :: ms, off3)

/-- `decodeMessage` (lines 259-331): flags byte, timestamp (u64 BE at
offset 1), length-prefixed id and sender, u16-length-prefixed content, then
optional length-prefixed fields and the mentions list, as dictated by the
flags bits.  Every `readUInt8` / `readUInt16BE` / `readBigUInt64BE` past
the end of the buffer throws (`none`); slices clamp silently. -/
def decodeMessage (buffer : List Nat) : Option BitchatMessage :=
  if buffer.length < 1 then none
  else
    let flags := byteAt buffer 0
    if buffer.length < 1 + 8 then none
    else
      let timestamp := readU64BE buffer 1
      match readLP buffer 9 with
      | none => none
      | some (id, off1) =>
        match readLP buffer off1 with
        | none => none
        | some (sender, off2) =>
          if buffer.length < off2 + 2 then none
          else
            let contentLength := readU16BE buffer off2
            let content := (buffer.drop (off2 + 2)).take contentLength
            let off3 := off2 + 2 + contentLength
            let base : BitchatMessage :=
              { id := id, sender := sender, content := content, timestamp := timestamp,
                isRelay := flags &&& 1 ≠ 0, isPrivate := flags &&& 2 ≠ 0,
                originalSender := none, recipientNickname := none,
                senderPeerID := none, mentions := none }
            let step1 : Option (Option (List Nat) × Nat) :=
              if flags &&& 4 ≠ 0 then
                (readLP buffer off3).map (fun r => (some r.1, r.2))
              else some (none, off3)
            match step1 with
            | none => none
            | some (originalSender, off4) =>
              let step2 : Option (Option (List Nat) × Nat) :=
                if flags &&& 8 ≠ 0 then
                  (readLP buffer off4).map (fun r => (some r.1, r.2))
                else some (none, off4)
              match step2 with
              | none => none
              | some (recipientNickname, off5) =>
                let step3 : Option (Option (List Nat) × Nat) :=
                  if flags &&& 16 ≠ 0 then
                    (readLP buffer off5).map (fun r => (some r.1, r.2))
                  else some (none, off5)
                match step3 with
                | none => none
                | some (senderPeerID, off6) =>
                  if flags &&& 32 ≠ 0 then
                    if buffer.length < off6 + 1 then none
                    else
                      let mentionsCount := byteAt buffer off6
                      match readMentions buffer mentionsCount (off6 + 1) with
                      | none => none
                      | some (ms, _) =>
                        some { base with
                                 originalSender := originalSender
                                 recipientNickname := recipientNickname
                                 senderPeerID := senderPeerID
                                 mentions := some ms }
                  else
                    some { base with
                             originalSender := originalSender
                             recipientNickname := recipientNickname
                             senderPeerID := senderPeerID
                             mentions := none }

/-- `handleMessage` (lines 425-432): `removePadding` then `decodeMessage`,
either of which can throw; the handler itself only logs the message. -/
def handleMessage (p : BitchatPacket) : Option BitchatMessage :=
  match removePadding p.payload with
  | none => none
  | some unpaddedPayload => decodeMessage unpaddedPayload

/-- `handleAnnounce` (lines 437-446): `payload.readUInt8(0)` throws on an
empty payload; the nickname and public-key slices clamp and the handler
only logs. -/
def handleAnnounce (p : BitchatPacket) : Option Unit :=
  if p.payload.length < 1 then none else some ()

/-! ### BitchatProtocol state and packet processing -/

/-- The `fragmentCache` JS `Map` keyed by the fragment message id (hex of
8 bytes, modelled by the bytes), in insertion order; `set` on an existing
key updates in place. -/
abbrev FragCache := List (List Nat × List MessageFragment)

def fragLookup (cache : FragCache) (id : List Nat) : Option (List MessageFragment) :=
  (cache.find? (fun e => e.1 = id)).map (fun e => e.2)

def fragSet : FragCache → List Nat → List MessageFragment → FragCache
  | [], id, fs => [(id, fs)]
  | e :: es, id, fs => if e.1 = id then (id, fs) :: es else e :: fragSet es id fs

def fragDelete : FragCache → List Nat → FragCache
  | [], _ => []
  | e :: es, id => if e.1 = id then es else e :: fragDelete es id

/-- State of a `BitchatProtocol` instance: its own `peerID`, the
`messageCache` set of seen packet ids (a JS `Set`, iterated in insertion
order) and the `fragmentCache` map. -/
structure ProtoState where
  peerID : List Nat
  messageCache : List PacketId
  fragmentCache : FragCache
deriving DecidableEq, Repr

/-- `validatePacket` (lines 104-134): version check, TTL check, clock-skew
check, duplicate check against the message cache, signature check. -/
def validatePacket (st : ProtoState) (now : Nat) (p : BitchatPacket) : Bool :=
  if p.version ≠ PROTOCOL_VERSION then false
  else if p.ttl > MAX_TTL then false
  else if p.timestamp > now + SKEW_MS ∨ p.timestamp < now - SKEW_MS then false
  else if getPacketId p ∈ st.messageCache then false
  else if p.signature.isSome ∧ verifySignature p = false then false
  else true

/-- `isPacketForUs`: no recipient counts as broadcast-for-us; otherwise the
recipient must be this node or the broadcast id. -/
def isPacketForUs (peerID : List Nat) (p : BitchatPacket) : Bool :=
  match p.recipientID with
  | none => true
  | some r => r = peerID ∨ r = BROADCAST_ID

/-- `cleanMessageCache`: keeps `entries.slice(entries.length / 2)`, the
newer half of the insertion-ordered entries (JS truncates the fractional
index). -/
def cleanMessageCache (cache : List PacketId) : List PacketId :=
  cache.drop (cache.length / 2)

/-- Lines 145-151 of `processPacket`: `messageCache.add(packetId)` followed
by the size-triggered `cleanMessageCache`. -/
def addToCache (cache : List PacketId) (id : PacketId) : List PacketId :=
  let cache1 := if id ∈ cache then cache else cache ++ [id]
  if cache1.length > 10000 then cleanMessageCache cache1 else cache1

/-- `handleFragment` (lines 460-489): `parseFragment` throws on short
payloads; the fragment is pushed into the cache entry; when the count
reaches the new fragment's `totalFragments`, `reassembleFragments` sorts
the cached array in place and, on a non-null result, `handleMessage` runs
on the reassembled payload (it can throw, in which case the sorted cache
entry persists) before the entry is deleted.  Returns the new state and
whether the handler completed without throwing. -/
def handleFragment (st : ProtoState) (p : BitchatPacket) : ProtoState × Bool :=
  match BinaryProtocol.parseFragment p.payload with
  | none => (st, false)
  | some fragment =>
    let existing := (fragLookup st.fragmentCache fragment.messageId).getD []
    let fragments := existing ++ [fragment]
    let st1 := { st with fragmentCache := fragSet st.fragmentCache fragment.messageId fragments }
    if fragments.length = fragment.totalFragments then
      let st2 := { st with
        fragmentCache := fragSet st.fragmentCache fragment.messageId (sortByIndex fragments) }
      match BinaryProtocol.reassembleFragments fragments with
      | some reassembled =>
        match handleMessage { p with type := MessageTypeMESSAGE, payload := reassembled } with
        | some _ =>
          ({ st2 with fragmentCache := fragDelete st2.fragmentCache fragment.messageId }, true)
        | none => (st2, false)
      | none => (st2, true)
    else (st1, true)

/-- The `switch (packet.type)` of `processPacket` (lines 154-178):
`MESSAGE`, `ANNOUNCE` and the fragment types run handlers that can throw;
`LEAVE` and `DELIVERY_ACK` only log; any other type falls through.  Returns
the state after the dispatch and whether it completed without throwing. -/
def dispatchPacket (st : ProtoState) (p : BitchatPacket) : ProtoState × Bool :=
  if p.type = MessageTypeMESSAGE then (st, (handleMessage p).isSome)
  else if p.type = MessageTypeANNOUNCE then (st, (handleAnnounce p).isSome)
  else if p.type = MessageTypeLEAVE then (st, true)
  else if p.type = MessageTypeFRAGMENT_START ∨ p.type = MessageTypeFRAGMENT_CONTINUE ∨
      p.type = MessageTypeFRAGMENT_END then
    handleFragment st p
  else if p.type = MessageTypeDELIVERY_ACK then (st, true)
  else (st, true)

/-- Result of one `processPacket` call: the successor state, whether the
message-type dispatch ran to completion (`false` both for an invalid packet
and for a handler that threw), and the relayed copy handed to
`relayPacket`, if any. -/
structure ProcessResult where
  state : ProtoState
  handled : Bool
  relayed : Option BitchatPacket
deriving DecidableEq, Repr

/-- `processPacket` (lines 139-184): drop invalid packets, record the packet
id (cleaning the cache above 10000 entries), dispatch by type — a handler
throw propagates and aborts the call, keeping the state mutations made so
far — then relay when `packet.ttl > 0` and the packet is not for this
node; the relayed copy carries `ttl - 1` (`relayPacket`, lines 506-516). -/
def processPacket (st : ProtoState) (now : Nat) (p : BitchatPacket) : ProcessResult :=
  if validatePacket st now p = false then ⟨st, false, none⟩
  else
    let st1 : ProtoState := { st with messageCache := addToCache st.messageCache (getPacketId p) }
    let d := dispatchPacket st1 p
    if d.2 = false then ⟨d.1, false, none⟩
    else
      let relayed :=
        if p.ttl > 0 ∧ isPacketForUs st.peerID p = false then
          some { p with ttl := p.ttl - 1 }
        else none
      ⟨d.1, true, relayed⟩

/-! ### CipherState and SymmetricState (`src/main/crypto/CipherState.ts`) -/

/-- `CipherState`: an optional 32-byte key and the nonce counter. -/
structure CipherState where
  key : Option (List Nat)
  nonce : Nat
deriving DecidableEq, Repr

inductive CipherError where
  /-- `CipherState not initialized`. -/
  | notInitialized
  /-- `Ciphertext too short`. -/
  | ciphertextTooShort
  /-- `Decryption failed: invalid ciphertext or authentication tag`. -/
  | decryptFailed
deriving DecidableEq, Repr

/-- The 96-bit nonce buffer: `writeBigUInt64LE(nonce & 2^64-1, 0)` then
`writeUInt32LE((nonce >> 64) & 2^32-1, 8)`. -/
def nonceBytes (nonce : Nat) : List Nat :=
  [nonce % 256, nonce / 256 % 256, nonce / 256 ^ 2 % 256, nonce / 256 ^ 3 % 256,
   nonce / 256 ^ 4 % 256, nonce / 256 ^ 5 % 256, nonce / 256 ^ 6 % 256,
   nonce / 256 ^ 7 % 256,
   nonce / 2 ^ 64 % 256, nonce / 2 ^ 64 / 256 % 256,
   nonce / 2 ^ 64 / 256 ^ 2 % 256, nonce / 2 ^ 64 / 256 ^ 3 % 256]

/-- `decryptWithAd` (lines 77-119).  `aeadOpen key nonce ad ct tag` stands
for the ChaCha20-Poly1305 open operation of `crypto.createDecipheriv`,
returning `none` on authentication failure.  The nonce counter is
incremented only after a successful `decipher.final()`; every failure path
leaves the state untouched. -/
def decryptWithAd
    (aeadOpen : List Nat → List Nat → List Nat → List Nat → List Nat → Option (List Nat))
    (st : CipherState) (ad ciphertext : List Nat) :
    Except CipherError (List Nat) × CipherState :=
  match st.key with
  | none => (.error .notInitialized, st)
  | some k =>
    if ciphertext.length < 16 then (.error .ciphertextTooShort, st)
    else
      let actualCiphertext := ciphertext.take (ciphertext.length - 16)
      let tag := ciphertext.drop (ciphertext.length - 16)
      match aeadOpen k (nonceBytes st.nonce) ad actualCiphertext tag with
      | none => (.error .decryptFailed, st)
      | some decrypted => (.ok decrypted, { st with nonce := st.nonce + 1 })

/-- `NoiseProtocol.PROTOCOL_NAME = 'Noise_XX_25519_ChaChaPoly_SHA256'`
(`NoiseProtocol.ts` line 46) as the ASCII bytes of
`Buffer.from(protocolName, 'ascii')`. -/
def PROTOCOL_NAME : String := "Noise_XX_25519_ChaChaPoly_SHA256"

def PROTOCOL_NAME_BYTES : List Nat :=
  [78, 111, 105, 115, 101, 95, 88, 88, 95, 50, 53, 53, 49, 57, 95,
   67, 104, 97, 67, 104, 97, 80, 111, 108, 121, 95, 83, 72, 65, 50, 53, 54]

/-- The `h` and `ck` fields set by the `SymmetricState` constructor. -/
structure SymmetricStateInit where
  h : List Nat
  ck : List Nat
deriving DecidableEq, Repr

/-- The `SymmetricState` constructor (lines 180-196): names of at most 32
bytes are copied into the zero-filled 32-byte `h` (zero padding fills the
rest); longer names are hashed with SHA-256 (`sha` stands for that hash,
unused for this protocol name); then `ck = h`. -/
def symmetricStateInit (sha : List Nat → List Nat) (protocolNameBytes : List Nat) :
    SymmetricStateInit :=
  if protocolNameBytes.length ≤ 32 then
    let h := padTrim protocolNameBytes 32
    ⟨h, h⟩
  else
    let h := sha protocolNameBytes
    ⟨h, h⟩

/-! ### Concrete inputs used by the theorems below -/

/-- A 22-byte buffer with version byte 2, type 4, ttl byte 9, zero timestamp,
zero flags, announced payload length 0 and an 8-byte sender id. -/
def c2data : List Nat := [2, 4, 9, 0, 0, 0, 0, 0, 0, 0, 0, 0, 0, 0] ++ List.replicate 8 5

/-- A node state: own peer id `01×8`, empty duplicate cache, empty fragment
cache. -/
def cSt : ProtoState := ⟨[1, 1, 1, 1, 1, 1, 1, 1], [], []⟩

/-- A valid `MESSAGE` packet with `ttl = 1` addressed to another node (its
payload does not unpad, so its dispatch throws). -/
def cPkt1 : BitchatPacket :=
  { version := 1, type := 4, ttl := 1, timestamp := 1000000, flags := 0,
    senderID := [9, 9, 9, 9, 9, 9, 9, 9], recipientID := some [2, 2, 2, 2, 2, 2, 2, 2],
    payload := [10, 20, 30], signature := none, isCompressed := false }

/-- A valid packet with `ttl = 1` addressed to another node whose type
(`READ_RECEIPT`) has no case in the dispatch switch, so its dispatch falls
through without any handler running. -/
def cPkt3 : BitchatPacket :=
  { version := 1, type := MessageTypeREAD_RECEIPT, ttl := 1, timestamp := 1000000, flags := 0,
    senderID := [9, 9, 9, 9, 9, 9, 9, 9], recipientID := some [2, 2, 2, 2, 2, 2, 2, 2],
    payload := [10, 20, 30], signature := none, isCompressed := false }

/-- A 600-byte payload (over `BLE_MTU`). -/
def c5payload : List Nat := List.replicate 600 65

/-- A small well-formed packet: no recipient, no signature, 3-byte payload. -/
def c7P : BitchatPacket :=
  { version := 1, type := 4, ttl := 7, timestamp := 99, flags := 0,
    senderID := [1, 2, 3, 4, 5, 6, 7, 8], recipientID := none,
    payload := [9, 8, 7], signature := none, isCompressed := false }

/-! ### Helper lemmas -/

theorem padTrim_length (xs : List Nat) (n : Nat) : (padTrim xs n).length = n := by
  simp only [padTrim, List.length_append, List.length_take, List.length_replicate]
  omega

theorem readSlot_length (data : List Nat) (off n : Nat) : (readSlot data off n).length = n := by
  simp only [readSlot, List.length_append, List.length_take, List.length_replicate,
    List.length_drop]
  omega

/-- `validatePacket` returns `true` exactly when the version is 1, the ttl is
at most `MAX_TTL`, the timestamp is within the clock-skew window and the
packet id is not in the duplicate cache (the signature check never fails
because `verifySignature` is a stub returning `true`). -/
theorem validatePacket_true_iff (st : ProtoState) (now : Nat) (p : BitchatPacket) :
    validatePacket st now p = true ↔
      p.version = PROTOCOL_VERSION ∧ p.ttl ≤ MAX_TTL ∧
      p.timestamp ≤ now + SKEW_MS ∧ now - SKEW_MS ≤ p.timestamp ∧
      getPacketId p ∉ st.messageCache := by
  unfold validatePacket verifySignature
  split_ifs <;> simp_all
  omega

/-- None of the dispatch handlers touches the duplicate cache: the dispatch
can only modify the fragment cache. -/
theorem dispatchPacket_messageCache (st : ProtoState) (p : BitchatPacket) :
    (dispatchPacket st p).1.messageCache = st.messageCache := by
  unfold dispatchPacket handleFragment
  repeat' first
    | rfl
    | split
    | (simp only)

/-- An id not yet cached is in the cache after `addToCache` (the over-10000
cleanup keeps the newer half, which contains the just-added id). -/
theorem mem_addToCache (cache : List PacketId) (id : PacketId) (hnot : id ∉ cache) :
    id ∈ addToCache cache id := by
  unfold addToCache
  simp only
  rw [if_neg hnot]
  set l := cache ++ [id] with hl
  by_cases hlen : l.length > 10000
  · rw [if_pos hlen]
    unfold cleanMessageCache
    have hle : l.length / 2 ≤ cache.length := by
      rw [hl]; simp only [List.length_append, List.length_cons, List.length_nil]; omega
    rw [hl, List.drop_append_of_le_length hle]
    exact List.mem_append_right _ (List.mem_singleton.mpr rfl)
  · rw [if_neg hlen, hl]
    exact List.mem_append_right _ (List.mem_singleton.mpr rfl)

/-- After a successful `processPacket`, the id of the processed packet is in
the duplicate cache (the cache add precedes the dispatch, so it survives a
handler throw). -/
theorem getPacketId_mem_after_processPacket (st : ProtoState) (now : Nat) (p : BitchatPacket)
    (h : validatePacket st now p = true) :
    getPacketId p ∈ (processPacket st now p).state.messageCache := by
  have hne : ¬ validatePacket st now p = false := by simp [h]
  have hnot : getPacketId p ∉ st.messageCache :=
    ((validatePacket_true_iff st now p).mp h).2.2.2.2
  unfold processPacket
  rw [if_neg hne]
  simp only
  split <;>
  · dsimp only
    rw [dispatchPacket_messageCache]
    exact mem_addToCache st.messageCache (getPacketId p) hnot

/-- A second delivery of the same packet fails validation: even when the
clock-skew window still admits it, the duplicate-cache check rejects it. -/
theorem validatePacket_false_second (st : ProtoState) (now now2 : Nat) (p : BitchatPacket)
    (h : validatePacket st now p = true) :
    validatePacket (processPacket st now p).state now2 p = false := by
  have hmem := getPacketId_mem_after_processPacket st now p h
  by_contra hne
  have ht : validatePacket (processPacket st now p).state now2 p = true := by
    revert hne; cases validatePacket (processPacket st now p).state now2 p <;> simp
  exact ((validatePacket_true_iff _ now2 p).mp ht).2.2.2.2 hmem

/-! ### Claim theorems -/

/-- C1: the round-trip property `decode(encode(P)) = P` fails on the code.
`encode` allocates `13 + 8 + ...` bytes although the header it writes
occupies 14 bytes, so the final byte of the encoded content is trimmed and
`decode(encode(P))` returns `P` with the last byte of its final section
zeroed.  On the packet of the repo round-trip test (payload
`Hello, BitChat!`), the decoded payload ends in `0` instead of `33`. -/
theorem C1_roundtrip_code_bug :
    BinaryProtocol.decode ((BinaryProtocol.encode testVectorPacket).toOption.getD []) =
      .ok { testVectorPacket with
            payload := [72, 101, 108, 108, 111, 44, 32, 66, 105, 116, 67, 104, 97, 116, 0] } ∧
    [72, 101, 108, 108, 111, 44, 32, 66, 105, 116, 67, 104, 97, 116, 0] ≠
      testVectorPacket.payload :=
  ⟨rfl, by decide⟩

/-- C2 counterexample: a buffer of at least 13 bytes whose version byte is 2
(not 1) and whose ttl byte is 9 (greater than `MAX_TTL`) decodes
successfully — `decode` performs no version or ttl check at all. -/
theorem C2_counterexample :
    13 ≤ c2data.length ∧ byteAt c2data 0 ≠ 1 ∧ MAX_TTL < byteAt c2data 2 ∧
    (BinaryProtocol.decode c2data).isOk = true := by decide

/-- C2 as amended: `decode` validates only sizes, never the version or ttl
bytes: every buffer of at least 14 bytes that covers the announced size
decodes successfully whatever its version and ttl bytes hold; the version
and ttl checks live in `validatePacket`, which rejects packets with
version ≠ 1 or ttl > MAX_TTL. -/
theorem C2_amended :
    (∀ data : List Nat, 14 ≤ data.length →
      BinaryProtocol.expectedPacketSize (byteAt data 11) (readU16BE data 12) ≤ data.length →
      (BinaryProtocol.decode data).isOk = true) ∧
    (∀ (st : ProtoState) (now : Nat) (p : BitchatPacket),
      p.version ≠ PROTOCOL_VERSION ∨ MAX_TTL < p.ttl → validatePacket st now p = false) := by
  constructor
  · intro data h14 hsz
    simp only [BinaryProtocol.decode]
    rw [if_neg (by omega), if_neg (by omega), if_neg (by omega)]
    rfl
  · intro st now p h
    unfold validatePacket
    rcases h with h | h
    · rw [if_pos h]
    · by_cases hv : p.version ≠ PROTOCOL_VERSION
      · rw [if_pos hv]
      · rw [if_neg hv, if_pos h]

/-- C2 witness: the amended theorem applied to a concrete 22-byte buffer. -/
theorem C2_witness : (BinaryProtocol.decode c2data).isOk = true :=
  C2_amended.1 c2data (by decide) (by decide)

/-- C10: `reassembleFragments` checks only the fragment count against
`totalFragments` and that all fragments share one `messageId`; it performs
no check that the indices are the distinct values `0..total-1`.  A list of
two fragments both carrying index 1 (index 0 missing) with `total = 2` is
accepted and reassembled instead of being rejected. -/
theorem C10_reassemble_no_index_check :
    BinaryProtocol.reassembleFragments
      [⟨[9, 9, 9, 9, 9, 9, 9, 9], 1, 2, [1, 2, 3]⟩,
       ⟨[9, 9, 9, 9, 9, 9, 9, 9], 1, 2, [4, 5, 6]⟩] = some [1, 2, 3, 4, 5, 6] := by
  decide

/-- C3 counterexample: a valid packet received with `ttl = 1`, addressed to
another node, whose type has no dispatch case (`READ_RECEIPT`, so the
switch falls through without a handler throw) IS relayed, with ttl 0 on the
relayed copy: the relay guard tests `packet.ttl > 0` before the decrement,
not after. -/
theorem C3_counterexample :
    cPkt3.ttl = 1 ∧
    (processPacket cSt 1000000 cPkt3).relayed = some { cPkt3 with ttl := 0 } := by
  decide

/-- C3 as amended: `processPacket` relays exactly when the packet validates,
its type dispatch runs to completion (a handler throw aborts the call
before the relay step), its ttl before the decrement is positive, and the
packet is not for this node; the relayed copy carries `ttl - 1`.  In
particular a valid packet received with `ttl = 1` whose dispatch completes
is both processed locally and relayed, with ttl 0. -/
theorem C3_amended (st : ProtoState) (now : Nat) (p : BitchatPacket) :
    ((processPacket st now p).relayed ≠ none ↔
      validatePacket st now p = true ∧ (processPacket st now p).handled = true ∧
      0 < p.ttl ∧ isPacketForUs st.peerID p = false) ∧
    (∀ q, (processPacket st now p).relayed = some q → q.ttl = p.ttl - 1) := by
  by_cases hv : validatePacket st now p = false
  · have heq : processPacket st now p = ⟨st, false, none⟩ := by
      unfold processPacket
      rw [if_pos hv]
    rw [heq]
    constructor
    · simp [hv]
    · intro q hq
      exact absurd hq (by simp)
  · have hv' : validatePacket st now p = true := by
      revert hv; cases validatePacket st now p <;> simp
    by_cases hok : (dispatchPacket
        { st with messageCache := addToCache st.messageCache (getPacketId p) } p).2 = false
    · have heq : processPacket st now p =
          ⟨(dispatchPacket
            { st with messageCache := addToCache st.messageCache (getPacketId p) } p).1,
           false, none⟩ := by
        unfold processPacket
        rw [if_neg hv]
        simp only
        rw [if_pos hok]
      rw [heq]
      constructor
      · simp
      · intro q hq
        exact absurd hq (by simp)
    · by_cases hc : 0 < p.ttl ∧ isPacketForUs st.peerID p = false
      · have heq : processPacket st now p =
            ⟨(dispatchPacket
              { st with messageCache := addToCache st.messageCache (getPacketId p) } p).1,
             true, some { p with ttl := p.ttl - 1 }⟩ := by
          unfold processPacket
          rw [if_neg hv]
          simp only
          rw [if_neg hok, if_pos hc]
        rw [heq]
        constructor
        · simp [hv', hc.1, hc.2]
        · intro q hq
          cases hq
          rfl
      · have heq : processPacket st now p =
            ⟨(dispatchPacket
              { st with messageCache := addToCache st.messageCache (getPacketId p) } p).1,
             true, none⟩ := by
          unfold processPacket
          rw [if_neg hv]
          simp only
          rw [if_neg hok, if_neg hc]
        rw [heq]
        constructor
        · simp only [ne_eq, not_true_eq_false, false_iff]
          intro hcon
          exact hc ⟨hcon.2.2.1, hcon.2.2.2⟩
        · intro q hq
          exact absurd hq (by simp)

/-- C3 witness: the amended theorem applied to the concrete `ttl = 1`
packet with an undispatched type, discharging the relay conditions by
evaluation. -/
theorem C3_witness : (processPacket cSt 1000000 cPkt3).relayed ≠ none :=
  (C3_amended cSt 1000000 cPkt3).1.mpr ⟨by decide, by decide, by decide, by decide⟩

/-- C8: a packet delivered twice is neither handled nor relayed the second
time: the first (validated) delivery stores its packet id in the duplicate
cache, so the second delivery fails validation and `processPacket` returns
without dispatching or relaying, whatever the clock reads then. -/
theorem C8_no_duplicate_relay (st : ProtoState) (now now2 : Nat) (p : BitchatPacket)
    (h : validatePacket st now p = true) :
    (processPacket (processPacket st now p).state now2 p).handled = false ∧
    (processPacket (processPacket st now p).state now2 p).relayed = none := by
  have hf := validatePacket_false_second st now now2 p h
  set S := (processPacket st now p).state with hS
  constructor
  · unfold processPacket
    rw [if_pos hf]
  · unfold processPacket
    rw [if_pos hf]

/-- C8 witness: the theorem applied to a concrete state and packet; the
second delivery of `cPkt1` is not relayed. -/
theorem C8_witness :
    (processPacket (processPacket cSt 1000000 cPkt1).state 1000000 cPkt1).relayed = none :=
  (C8_no_duplicate_relay cSt 1000000 1000000 cPkt1 (by decide)).2

/-- The padding target is at least the payload length; for payloads of at
most 2048 bytes it is one of the standard block sizes, and beyond that it
is a multiple of 256. -/
theorem applyPaddingTarget_cases (len : Nat) :
    len ≤ applyPaddingTarget len ∧
    (len ≤ 2048 → applyPaddingTarget len ∈ STANDARD_BLOCK_SIZES) ∧
    (2048 < len → applyPaddingTarget len % 256 = 0) := by
  have hd := Nat.div_add_mod (len + 255) 256
  have hm : (len + 255) % 256 < 256 := Nat.mod_lt _ (by norm_num)
  unfold applyPaddingTarget STANDARD_BLOCK_SIZES
  simp only [firstBlockGE]
  split_ifs <;>
    refine ⟨?_, fun hle => ?_, fun hgt => ?_⟩ <;>
    first
      | omega
      | decide

set_option maxRecDepth 4000 in
/-- C4 counterexample: a 10-byte payload pads to a 258-byte buffer, which is
neither a standard block size nor a multiple of 256: the padded length is
always `target + 2`, two more than the claimed set allows. -/
theorem C4_counterexample :
    (applyPadding (fun _ => 0) (List.replicate 10 7)).map List.length = some 258 ∧
    ¬(258 ∈ STANDARD_BLOCK_SIZES ∨ ((258 : Nat) % 256 = 0 ∧ 10 + 2 ≤ 258)) := by
  decide

/-- C4 as amended: for any payload of at most 65535 bytes, `applyPadding`
returns a buffer of exactly `target + 2` bytes, where `target` is the
smallest standard block size of at least the payload length (a multiple of
256 beyond 2048): the two extra bytes are the `u16 BE` true-length prefix
written outside the target. -/
theorem C4_amended (randomByte : Nat → Nat) (payload : List Nat)
    (h : payload.length ≤ 65535) :
    ∃ l, applyPadding randomByte payload = some l ∧
      l.length = applyPaddingTarget payload.length + 2 ∧
      payload.length + 2 ≤ l.length ∧
      (payload.length ≤ 2048 → applyPaddingTarget payload.length ∈ STANDARD_BLOCK_SIZES) ∧
      (2048 < payload.length → applyPaddingTarget payload.length % 256 = 0) := by
  obtain ⟨hge, hblk, hmul⟩ := applyPaddingTarget_cases payload.length
  refine ⟨u16be payload.length ++ payload ++
    (List.range (applyPaddingTarget payload.length - payload.length)).map
      (fun i => randomByte i % 256), ?_, ?_, ?_, hblk, hmul⟩
  · unfold applyPadding
    rw [if_neg (by omega)]
  · simp only [u16be, List.length_append, List.length_cons, List.length_nil,
      List.length_map, List.length_range]
    omega
  · simp only [u16be, List.length_append, List.length_cons, List.length_nil,
      List.length_map, List.length_range]
    omega

/-- C4 witness: the amended theorem applied to a 3-byte payload gives a
padded buffer (of 258 bytes). -/
theorem C4_witness : (applyPadding (fun _ => 0) [1, 2, 3]).isSome = true := by
  obtain ⟨l, hl, -, -, -, -⟩ := C4_amended (fun _ => 0) [1, 2, 3] (by decide)
  rw [hl]
  rfl

set_option maxRecDepth 8000 in
/-- C5 counterexample: a 600-byte payload is split into chunks of `BLE_MTU`
bytes (not `BLE_MTU - 12`), so the first fragment payload is
`12 + 512 = 524` bytes — longer than `BLE_MTU`. -/
theorem C5_counterexample :
    (BinaryProtocol.fragmentMessage [1, 2, 3, 4, 5, 6, 7, 8] c5payload).map
      (fun l => l.map (fun pr => pr.2.length)) = some [524, 100] ∧
    ¬(524 ≤ BLE_MTU) := by
  constructor
  · rfl
  · decide

/-- C5 as amended: `fragmentMessage` splits payloads longer than `BLE_MTU`
into data chunks of at most `BLE_MTU` bytes each, so every fragment payload
`[message_id(8) | index(2) | total(2) | data]` it produces is at most
`BLE_MTU + 12 = 524` bytes long (and a payload of at most `BLE_MTU` bytes
is returned unfragmented as one `MESSAGE` packet). -/
theorem C5_amended (messageIdBytes payload : List Nat) (pkts : List (Nat × List Nat))
    (h : BinaryProtocol.fragmentMessage messageIdBytes payload = some pkts)
    (pr : Nat × List Nat) (hm : pr ∈ pkts) :
    pr.2.length ≤ BLE_MTU + 12 := by
  unfold BinaryProtocol.fragmentMessage at h
  by_cases hsmall : payload.length ≤ BLE_MTU
  · rw [if_pos hsmall] at h
    cases h
    rw [List.mem_singleton] at hm
    subst hm
    show payload.length ≤ BLE_MTU + 12
    omega
  · rw [if_neg hsmall] at h
    by_cases hbig : (payload.length + BLE_MTU - 1) / BLE_MTU > 65535
    · rw [if_pos hbig] at h
      exact absurd h (by simp)
    · rw [if_neg hbig] at h
      simp only [Option.some.injEq] at h
      subst h
      rw [List.mem_map] at hm
      obtain ⟨i, hi, rfl⟩ := hm
      simp only [List.length_append, padTrim_length, u16be, List.length_cons,
        List.length_nil, List.length_take, List.length_drop]
      omega

/-- C5 witness: the amended bound applied to a concrete small payload. -/
theorem C5_witness : ((4 : Nat), ([1, 2] : List Nat)).2.length ≤ BLE_MTU + 12 :=
  C5_amended [] [1, 2] [(4, [1, 2])] (by decide) (4, [1, 2]) (by decide)

/-- C6 counterexample: the protocol name
`Noise_XX_25519_ChaChaPoly_SHA256` is 32 bytes long, not 31: the initial
`h` is the name itself with no zero padding byte — byte 31 of `h` is the
ASCII digit 6 (54), not 0. -/
theorem C6_counterexample :
    PROTOCOL_NAME_BYTES.length ≠ 31 ∧
    (symmetricStateInit (fun _ => []) PROTOCOL_NAME_BYTES).h = PROTOCOL_NAME_BYTES ∧
    byteAt (symmetricStateInit (fun _ => []) PROTOCOL_NAME_BYTES).h 31 ≠ 0 := by
  decide

/-- C6 as amended: the protocol name is the literal ASCII
`Noise_XX_25519_ChaChaPoly_SHA256`, which is 32 bytes long, so the 32-byte
initial `h` is exactly the name (padded with zero zero-bytes), and `ck` is
initialized equal to `h`. -/
theorem C6_amended (sha : List Nat → List Nat) :
    PROTOCOL_NAME_BYTES.length = 32 ∧
    PROTOCOL_NAME.data.map Char.toNat = PROTOCOL_NAME_BYTES ∧
    symmetricStateInit sha PROTOCOL_NAME_BYTES =
      ⟨PROTOCOL_NAME_BYTES, PROTOCOL_NAME_BYTES⟩ := by
  refine ⟨by decide, by decide, ?_⟩
  unfold symmetricStateInit
  rw [if_pos (by decide)]
  decide

/-- C6 witness: the amended theorem applied with a concrete (unused) hash
function. -/
theorem C6_witness :
    symmetricStateInit (fun _ => []) PROTOCOL_NAME_BYTES =
      ⟨PROTOCOL_NAME_BYTES, PROTOCOL_NAME_BYTES⟩ :=
  (C6_amended (fun _ => [])).2.2

/-- C7: for packets whose fixed fields are in range (u8 version, type and
ttl, u64 timestamp — the data-model invariants of the spec), `encode` fails
exactly when the payload exceeds 65535 bytes, and every produced buffer has
exactly `13 + 8 + (8 if recipient) + payload_len + (64 if signature)`
bytes (the allocated size; the one-byte header overrun is trimmed, not
grown). -/
theorem C7_encode_contract (p : BitchatPacket)
    (hv : p.version ≤ 255) (hty : p.type ≤ 255) (httl : p.ttl ≤ 255)
    (hts : p.timestamp < 2 ^ 64) :
    ((BinaryProtocol.encode p).isOk = true ↔ p.payload.length ≤ 65535) ∧
    (∀ b, BinaryProtocol.encode p = .ok b →
      b.length = 13 + 8 + (if p.recipientID.isSome then 8 else 0) +
        p.payload.length + (if p.signature.isSome then 64 else 0)) := by
  have hrange : ¬(255 < p.version ∨ 255 < p.type ∨ 255 < p.ttl ∨ 2 ^ 64 ≤ p.timestamp) := by
    omega
  unfold BinaryProtocol.encode
  by_cases hp : p.payload.length > MESSAGE_MAX_SIZE
  · rw [if_pos hp]
    constructor
    · constructor
      · intro hok
        exact absurd hok (by simp [Except.isOk, Except.toBool])
      · intro hle
        exfalso
        unfold MESSAGE_MAX_SIZE at hp
        omega
    · intro b hb
      exact absurd hb (by simp)
  · rw [if_neg hp, if_neg hrange]
    constructor
    · constructor
      · intro _
        unfold MESSAGE_MAX_SIZE at hp
        omega
      · intro _
        rfl
    · intro b hb
      simp only [Except.ok.injEq] at hb
      subst hb
      rcases hr : p.recipientID with - | r <;> rcases hs : p.signature with - | s <;>
        simp [hr, hs, padTrim_length, u64be, u16be, BinaryProtocol.encodeFlags] <;>
        omega

/-- C7 witness: the contract applied to a concrete packet with a 3-byte
payload, no recipient and no signature: encoding succeeds and yields
`13 + 8 + 3 = 24` bytes. -/
theorem C7_witness :
    (BinaryProtocol.encode c7P).isOk = true ∧
    (BinaryProtocol.encode c7P).toOption.map List.length = some 24 := by
  have h := C7_encode_contract c7P (by decide) (by decide) (by decide) (by decide)
  refine ⟨h.1.mpr (by decide), ?_⟩
  cases heq : BinaryProtocol.encode c7P with
  | error e =>
    have hok := h.1.mpr (by decide)
    rw [heq] at hok
    exact absurd hok (by simp [Except.isOk, Except.toBool])
  | ok b =>
    have hlen := h.2 b heq
    have hlen24 : b.length = 24 := by
      simpa [c7P] using hlen
    simp [Except.toOption, hlen24]

/-- C9: with a key installed, a failed `decryptWithAd` (authentication
failure, or a ciphertext shorter than the 16-byte tag) leaves the cipher
state — in particular the nonce counter — unchanged; the counter is
incremented exactly on successful decryption. -/
theorem C9_decrypt_failure_preserves_state
    (aeadOpen : List Nat → List Nat → List Nat → List Nat → List Nat → Option (List Nat))
    (st : CipherState) (ad ct : List Nat)
    (hkey : st.key.isSome = true) :
    ((decryptWithAd aeadOpen st ad ct).1.isOk = false →
      (decryptWithAd aeadOpen st ad ct).2 = st) ∧
    ((decryptWithAd aeadOpen st ad ct).1.isOk = true →
      (decryptWithAd aeadOpen st ad ct).2 = { st with nonce := st.nonce + 1 }) := by
  obtain ⟨key, nonce⟩ := st
  cases key with
  | none => simp at hkey
  | some k =>
    unfold decryptWithAd
    simp only
    by_cases hlen : ct.length < 16
    · rw [if_pos hlen]
      exact ⟨fun _ => rfl, fun hok => absurd hok (by simp [Except.isOk, Except.toBool])⟩
    · rw [if_neg hlen]
      cases haead : aeadOpen k (nonceBytes nonce) ad (ct.take (ct.length - 16))
          (ct.drop (ct.length - 16)) with
      | none =>
        exact ⟨fun _ => rfl, fun hok => absurd hok (by simp [Except.isOk, Except.toBool])⟩
      | some pt =>
        exact ⟨fun hfail => absurd hfail (by simp [Except.isOk, Except.toBool]), fun _ => rfl⟩

/-- C9 witness: a concrete failing decryption (the abstract AEAD rejects)
leaves the concrete state `(key, nonce 5)` unchanged. -/
theorem C9_witness :
    (decryptWithAd (fun _ _ _ _ _ => none) ⟨some (List.replicate 32 0), 5⟩ []
      (List.replicate 16 1)).2 = ⟨some (List.replicate 32 0), 5⟩ :=
  (C9_decrypt_failure_preserves_state (fun _ _ _ _ _ => none)
    ⟨some (List.replicate 32 0), 5⟩ [] (List.replicate 16 1) (by decide)).1 (by decide)

end Bitchat
